import Mathlib

/-!
Verification of the CrystalDiskMark text-report parsing library
(`crystaldiskmark_parser/parser.py`).

The development shallowly embeds the parser:

* the nine regexes of `rx_dict` are embedded as lists of regex tokens
  (literal / character-class / alternation), and a backtracking matcher
  (`matchToks` / `searchToks`) mirrors Python `re.search` semantics for
  these patterns: leftmost match position, greedy repetition with
  backtracking, alternatives tried in written order;
* Python `float` / `int` / `str.strip` / `str.lower`, restricted to the
  character material those regexes can capture, are embedded as
  `pyFloat?`, `pyInt`, `pyStrip`, `pyLower`; decimal values are modelled
  exactly as rationals;
* the line loop of `parse` becomes `step` (one line) and `parseLines`
  (the loop), with the two fatal situations of the source -
  the `raise Exception("can not classify ...")` and the `ValueError`
  raised by `float` on an unparseable captured numeral - surfacing as
  `Except.error`;
* the dataframe flattening of `parse_df` becomes a `List Row`.

Input is modelled as the list of lines produced by `file.readline()`:
every line ends with `'\n'` except possibly the last line of a file
with no trailing newline.  File I/O and character decoding are outside
the embedding.
-/

namespace CDM

/-- ASCII part of Python's regex class `\s` (and of `str.strip`'s
default whitespace set). -/
def isSpacePy (c : Char) : Bool :=
  c == ' ' || c == '\t' || c == '\n' || c == '\r' || c == '\x0b' || c == '\x0c'

/-- ASCII part of Python's regex class `\d`. -/
def isDigitPy (c : Char) : Bool :=
  '0' ≤ c && c ≤ '9'

/-- The character class `[\d\.\,]` used for the rate, IOPS and latency
fields of the measurement regex. -/
def isRateChar (c : Char) : Bool :=
  isDigitPy c || c == '.' || c == ','

/-- One token of an embedded regex: a literal, a character class
(`\s*`, `\d+`, `\S+`, `.+`, `[\d\.\,]+`; the `Bool` is `true` for `+`,
`false` for `*`; the `Option String` is the capture-group name), or an
alternation of literals with a capture-group name. -/
inductive Tok where
  | lit : String → Tok
  | cls : Option String → (Char → Bool) → Bool → Tok
  | alt : String → List String → Tok

/-- Length of the maximal munch of class `p` at the front of `cs`. -/
def takeCount (p : Char → Bool) : List Char → Nat
  | [] => 0
  | c :: cs => if p c then takeCount p cs + 1 else 0

/-- Try `f` at `k, k-1, ..., lo` and return the first `some`.
This realises greedy repetition with backtracking. -/
def firstDown {α : Type} (f : Nat → Option α) (lo : Nat) : Nat → Option α
  | 0 => if lo = 0 then f 0 else none
  | k + 1 =>
    if k + 1 < lo then none
    else
      match f (k + 1) with
      | some v => some v
      | none => firstDown f lo k

/-- Match a token list at the front of `cs` (anchored), returning the
captured groups in token order.  Greedy with backtracking, alternatives
in written order - the semantics Python's `re` gives these patterns. -/
def matchToks : List Tok → List Char → Option (List (String × String))
  | [], _ => some []
  | Tok.lit s :: ts, cs =>
    if s.toList.isPrefixOf cs then matchToks ts (cs.drop s.length) else none
  | Tok.alt name alts :: ts, cs =>
    alts.findSome? fun a =>
      if a.toList.isPrefixOf cs then
        (matchToks ts (cs.drop a.length)).map fun caps => (name, a) :: caps
      else none
  | Tok.cls name p one :: ts, cs =>
    firstDown
      (fun k =>
        (matchToks ts (cs.drop k)).map fun caps =>
          match name with
          | some n => (n, String.mk (cs.take k)) :: caps
          | none => caps)
      (if one then 1 else 0) (takeCount p cs)

/-- `re.search`: try to match at position 0, 1, 2, ... and return the
captures of the leftmost match. -/
def searchToks (toks : List Tok) : List Char → Option (List (String × String))
  | [] => matchToks toks []
  | c :: cs' =>
    match matchToks toks (c :: cs') with
    | some caps => some caps
    | none => searchToks toks cs'

/-- Embedding of `rx_dict['test_res']`:
`\s*(?P<type>SEQ|RND|Sequential|Random)\s*(?P<blocksize>\d+)(?P<ublocksize>\S+)\s*\(Q=\s*(?P<queue>\d+), T=\s*(?P<threads>\d+)\):\s*(?P<rate>[\d\.\,]+) (?P<urate>\S+)\s*\[\s*(?P<iops>[\d\.\,]+) (?P<uiops>\S+)\]\s*<\s*(?P<us>[\d\.\,]+) (?P<uus>\S+)>\s*\n`. -/
def testResToks : List Tok := [
  Tok.cls none isSpacePy false,
  Tok.alt "type" ["SEQ", "RND", "Sequential", "Random"],
  Tok.cls none isSpacePy false,
  Tok.cls (some "blocksize") isDigitPy true,
  Tok.cls (some "ublocksize") (fun c => !isSpacePy c) true,
  Tok.cls none isSpacePy false,
  Tok.lit "(Q=",
  Tok.cls none isSpacePy false,
  Tok.cls (some "queue") isDigitPy true,
  Tok.lit ", T=",
  Tok.cls none isSpacePy false,
  Tok.cls (some "threads") isDigitPy true,
  Tok.lit "):",
  Tok.cls none isSpacePy false,
  Tok.cls (some "rate") isRateChar true,
  Tok.lit " ",
  Tok.cls (some "urate") (fun c => !isSpacePy c) true,
  Tok.cls none isSpacePy false,
  Tok.lit "[",
  Tok.cls none isSpacePy false,
  Tok.cls (some "iops") isRateChar true,
  Tok.lit " ",
  Tok.cls (some "uiops") (fun c => !isSpacePy c) true,
  Tok.lit "]",
  Tok.cls none isSpacePy false,
  Tok.lit "<",
  Tok.cls none isSpacePy false,
  Tok.cls (some "us") isRateChar true,
  Tok.lit " ",
  Tok.cls (some "uus") (fun c => !isSpacePy c) true,
  Tok.lit ">",
  Tok.cls none isSpacePy false,
  Tok.lit "\n"
]

/-- Embedding of `rx_dict['read_or_write']`:
`\s*\[(?P<read_or_write>Read|Write|Mix)\]\s*`. -/
def readOrWriteToks : List Tok := [
  Tok.cls none isSpacePy false,
  Tok.lit "[",
  Tok.alt "read_or_write" ["Read", "Write", "Mix"],
  Tok.lit "]",
  Tok.cls none isSpacePy false
]

/-- Embedding of `rx_dict['profile']`: `\s*Profile: (?P<profile>.+)\s*`. -/
def profileToks : List Tok := [
  Tok.cls none isSpacePy false,
  Tok.lit "Profile: ",
  Tok.cls (some "profile") (fun c => c != '\n') true,
  Tok.cls none isSpacePy false
]

/-- Embedding of `rx_dict['test']`: `\s*Test: (?P<test>.+)\s*`. -/
def testToks : List Tok := [
  Tok.cls none isSpacePy false,
  Tok.lit "Test: ",
  Tok.cls (some "test") (fun c => c != '\n') true,
  Tok.cls none isSpacePy false
]

/-- Embedding of `rx_dict['mode']`: `\s*Mode: (?P<mode>.+)\s*`. -/
def modeToks : List Tok := [
  Tok.cls none isSpacePy false,
  Tok.lit "Mode: ",
  Tok.cls (some "mode") (fun c => c != '\n') true,
  Tok.cls none isSpacePy false
]

/-- Embedding of `rx_dict['time']`: `\s*Time: (?P<time>.+)\s*`. -/
def timeToks : List Tok := [
  Tok.cls none isSpacePy false,
  Tok.lit "Time: ",
  Tok.cls (some "time") (fun c => c != '\n') true,
  Tok.cls none isSpacePy false
]

/-- Embedding of `rx_dict['date']`: `\s*Date: (?P<date>.+)\s*`. -/
def dateToks : List Tok := [
  Tok.cls none isSpacePy false,
  Tok.lit "Date: ",
  Tok.cls (some "date") (fun c => c != '\n') true,
  Tok.cls none isSpacePy false
]

/-- Embedding of `rx_dict['os']`: `\s*OS: (?P<os>.+)\s*`. -/
def osToks : List Tok := [
  Tok.cls none isSpacePy false,
  Tok.lit "OS: ",
  Tok.cls (some "os") (fun c => c != '\n') true,
  Tok.cls none isSpacePy false
]

/-- Embedding of `rx_dict['comment']`: `\s*Comment: (?P<comment>.+)\s*`. -/
def commentToks : List Tok := [
  Tok.cls none isSpacePy false,
  Tok.lit "Comment: ",
  Tok.cls (some "comment") (fun c => c != '\n') true,
  Tok.cls none isSpacePy false
]

/-- `rx_dict` of the source, in its (insertion-ordered) iteration
order. -/
def rx_dict : List (String × List Tok) := [
  ("test_res", testResToks),
  ("read_or_write", readOrWriteToks),
  ("profile", profileToks),
  ("test", testToks),
  ("mode", modeToks),
  ("time", timeToks),
  ("date", dateToks),
  ("os", osToks),
  ("comment", commentToks)
]

/-- Embedding of `__parse_line`: run every regex in `rx_dict` order
against the line with `re.search` and return the key and captures of
the first that matches; `none` when no regex matches. -/
def parse_line (line : String) : Option (String × List (String × String)) :=
  rx_dict.findSome? fun kv =>
    (searchToks kv.2 line.toList).map fun caps => (kv.1, caps)

/-- `match.group(name)`: the captured text of group `name` (all groups
of these regexes are mandatory, so a successful match always binds
every name; the default `""` is never reached on real captures). -/
def group (caps : List (String × String)) (name : String) : String :=
  (caps.lookup name).getD ""

/-- Python `str.strip()` restricted to ASCII whitespace. -/
def pyStrip (s : String) : String :=
  String.mk (((s.toList.dropWhile fun c => isSpacePy c).reverse.dropWhile
    fun c => isSpacePy c).reverse)

/-- Python `str.lower()` on the ASCII strings this parser lowercases
(the section tokens `Read`/`Write`/`Mix`). -/
def pyLower (s : String) : String :=
  String.mk (s.toList.map Char.toLower)

/-- Big-endian decimal value of a digit list. -/
def digitsToNat (cs : List Char) : Nat :=
  cs.foldl (fun n c => n * 10 + (c.toNat - '0'.toNat)) 0

/-- Python `int()` on a string captured by `\d+` (such strings always
parse). -/
def pyInt (s : String) : Nat :=
  digitsToNat s.toList

/-- Python `float()` on a string drawn from the class `[\d\.\,]+` (the
only fallible conversions the parser performs): the conversion
succeeds iff the string has no comma, at most one dot and at least one
digit, and the decimal value is modelled exactly as a rational.
A comma (or a second dot) raises `ValueError` in the source, here
`none`. -/
def pyFloat? (s : String) : Option ℚ :=
  if s.toList.any fun c => !(isDigitPy c || c == '.') then none
  else if 2 ≤ s.toList.countP fun c => c == '.' then none
  else if !s.toList.any isDigitPy then none
  else
    some ((digitsToNat (s.toList.takeWhile fun c => c != '.') : ℚ) +
      (digitsToNat ((s.toList.dropWhile fun c => c != '.').drop 1) : ℚ) /
        (10 : ℚ) ^ ((s.toList.dropWhile fun c => c != '.').drop 1).length)

/-- Embedding of class `TestResult` (one measurement line), with every
field populated as `parse` populates it. -/
structure TestResult where
  test_type : String
  block_size : ℚ
  unit_block_size : String
  queues : Nat
  threads : Nat
  rate : ℚ
  unit_rate : String
  iops : ℚ
  unit_iops : String
  latency : ℚ
  unit_latency : String
deriving DecidableEq

/-- Embedding of class `BenchmarkResult` as `BenchmarkResult.__init__`
creates it: every metadata field `None`, every result list empty. -/
structure BenchmarkResult where
  test : Option String := none
  date : Option String := none
  os : Option String := none
  profile : Option String := none
  time : Option String := none
  mode : Option String := none
  comment : Option String := none
  write_results : List TestResult := []
  read_results : List TestResult := []
  mix_results : List TestResult := []
deriving DecidableEq

/-- The two fatal errors `parse` can raise: the explicit
`Exception("can not classify test result to 'read' or 'write' or 'mix'")`
and the `ValueError` a failing `float()` conversion raises. -/
inductive ParseError where
  | classification
  | numericFormat
deriving DecidableEq

/-- Construction of a `TestResult` from the captures of a `test_res`
match (source lines 271-283): the four `float()` conversions can fail,
string fields are `strip()`ped, `queue`/`threads` go through `int()`. -/
def mkTestResult (caps : List (String × String)) : Option TestResult :=
  match pyFloat? (group caps "blocksize"), pyFloat? (group caps "rate"),
      pyFloat? (group caps "iops"), pyFloat? (group caps "us") with
  | some bs, some r, some i, some u =>
    some {
      test_type := pyStrip (group caps "type")
      block_size := bs
      unit_block_size := pyStrip (group caps "ublocksize")
      queues := pyInt (group caps "queue")
      threads := pyInt (group caps "threads")
      rate := r
      unit_rate := pyStrip (group caps "urate")
      iops := i
      unit_iops := pyStrip (group caps "uiops")
      latency := u
      unit_latency := pyStrip (group caps "uus") }
  | _, _, _, _ => none

/-- The classification of a fresh measurement (source lines 285-292):
append to the list selected by the current `read_or_write` state, in
the source's comparison order, or raise the classification error. -/
def classifyAppend (sec : Option String) (tr : TestResult) (r : BenchmarkResult) :
    Except ParseError BenchmarkResult :=
  if sec = some "write" then Except.ok { r with write_results := r.write_results ++ [tr] }
  else if sec = some "read" then Except.ok { r with read_results := r.read_results ++ [tr] }
  else if sec = some "mix" then Except.ok { r with mix_results := r.mix_results ++ [tr] }
  else Except.error ParseError.classification

/-- The metadata assignments of the `else` branch (source lines
297-316): the captured value, stripped, overwrites the field named by
the key; any other key leaves the entity unchanged. -/
def metaUpdate (key : String) (caps : List (String × String)) (r : BenchmarkResult) :
    BenchmarkResult :=
  if key = "profile" then { r with profile := some (pyStrip (group caps "profile")) }
  else if key = "test" then { r with test := some (pyStrip (group caps "test")) }
  else if key = "os" then { r with os := some (pyStrip (group caps "os")) }
  else if key = "date" then { r with date := some (pyStrip (group caps "date")) }
  else if key = "time" then { r with time := some (pyStrip (group caps "time")) }
  else if key = "mode" then { r with mode := some (pyStrip (group caps "mode")) }
  else if key = "comment" then { r with comment := some (pyStrip (group caps "comment")) }
  else r

/-- One iteration of the `while line:` loop of `parse` (source lines
262-318).  The state is the pair (current `read_or_write` value,
entity built so far).  A `read_or_write` match stores the lowercased
token; a `test_res` match builds a `TestResult` (failing `float()`
aborts) and classifies it; every other outcome - a metadata match or
no match at all - resets `read_or_write` to `None`. -/
def step (st : Option String × BenchmarkResult) (line : String) :
    Except ParseError (Option String × BenchmarkResult) :=
  match parse_line line with
  | some (key, caps) =>
    if key = "read_or_write" then
      Except.ok (some (pyLower (group caps "read_or_write")), st.2)
    else if key = "test_res" then
      match mkTestResult caps with
      | none => Except.error ParseError.numericFormat
      | some tr => (classifyAppend st.1 tr st.2).map fun r => (st.1, r)
    else
      Except.ok (none, metaUpdate key caps st.2)
  | none => Except.ok (none, st.2)

/-- The line loop of `parse`: thread the state through the lines,
aborting at the first error. -/
def parseLines : List String → Option String × BenchmarkResult →
    Except ParseError BenchmarkResult
  | [], st => Except.ok st.2
  | l :: ls, st =>
    match step st l with
    | Except.ok st' => parseLines ls st'
    | Except.error e => Except.error e

/-- Embedding of `parse` (source lines 237-319) on the decoded line
sequence of the file: start from a fresh `BenchmarkResult` and
`read_or_write = None`. -/
def parse (lines : List String) : Except ParseError BenchmarkResult :=
  parseLines lines (none, {})

/-- Reference definition following the spec's words (for the
order-preservation claim): the chronological list, in source order, of
(owning section, measurement) pairs produced by the lines - a
measurement line is tagged with the section active when it is
encountered, a section header activates its lowercased token, any
other recognized line and any unmatched line deactivates the section.
Lines whose measurement cannot be built or attributed contribute
nothing here (on such inputs `parse` fails and the claim does not
apply). -/
def specChronTrace (sec : Option String) : List String → List (String × TestResult)
  | [] => []
  | l :: ls =>
    match parse_line l with
    | some (key, caps) =>
      if key = "read_or_write" then
        specChronTrace (some (pyLower (group caps "read_or_write"))) ls
      else if key = "test_res" then
        match mkTestResult caps, sec with
        | some tr, some s => (s, tr) :: specChronTrace sec ls
        | _, _ => specChronTrace sec ls
      else specChronTrace none ls
    | none => specChronTrace none ls

/-- One row of the flattened dataframe of `parse_df`, with the
source's column set. -/
structure Row where
  date : Option String
  test : Option String
  time : Option String
  os : Option String
  mode : Option String
  profile : Option String
  comment : Option String
  read_write_mix : String
  type : String
  blocksize : ℚ
  unit_blocksize : String
  queues : Nat
  threads : Nat
  rate : ℚ
  unit_rate : String
  iops : ℚ
  unit_iops : String
  latency : ℚ
  unit_latency : String
deriving DecidableEq

/-- The row built for one read measurement (source lines 165-186). -/
def rowOfRead (res : BenchmarkResult) (r : TestResult) : Row :=
  { read_write_mix := "read", date := res.date, test := res.test, time := res.time,
    os := res.os, mode := res.mode, profile := res.profile, comment := res.comment,
    type := r.test_type, blocksize := r.block_size, unit_blocksize := r.unit_block_size,
    queues := r.queues, threads := r.threads, rate := r.rate, unit_rate := r.unit_rate,
    iops := r.iops, unit_iops := r.unit_iops, latency := r.latency,
    unit_latency := r.unit_latency }

/-- The row built for one write measurement (source lines 188-209). -/
def rowOfWrite (res : BenchmarkResult) (r : TestResult) : Row :=
  { read_write_mix := "write", date := res.date, test := res.test, time := res.time,
    os := res.os, mode := res.mode, profile := res.profile, comment := res.comment,
    type := r.test_type, blocksize := r.block_size, unit_blocksize := r.unit_block_size,
    queues := r.queues, threads := r.threads, rate := r.rate, unit_rate := r.unit_rate,
    iops := r.iops, unit_iops := r.unit_iops, latency := r.latency,
    unit_latency := r.unit_latency }

/-- The row built for one mix measurement (source lines 211-232). -/
def rowOfMix (res : BenchmarkResult) (r : TestResult) : Row :=
  { read_write_mix := "mix", date := res.date, test := res.test, time := res.time,
    os := res.os, mode := res.mode, profile := res.profile, comment := res.comment,
    type := r.test_type, blocksize := r.block_size, unit_blocksize := r.unit_block_size,
    queues := r.queues, threads := r.threads, rate := r.rate, unit_rate := r.unit_rate,
    iops := r.iops, unit_iops := r.unit_iops, latency := r.latency,
    unit_latency := r.unit_latency }

/-- Embedding of `parse_df` (source lines 117-234): parse, then start
from an empty table and append one row per measurement - first the
read loop, then the write loop, then the mix loop, each appending at
the end (`pd.concat(..., ignore_index=True)`). -/
def parse_df (lines : List String) : Except ParseError (List Row) :=
  (parse lines).map fun res =>
    let df : List Row := []
    let df := res.read_results.foldl (fun df r => df ++ [rowOfRead res r]) df
    let df := res.write_results.foldl (fun df r => df ++ [rowOfWrite res r]) df
    let df := res.mix_results.foldl (fun df r => df ++ [rowOfMix res r]) df
    df

/-- A well-formed CDM8 sequential read measurement line (from the
repository's own test fixture values). -/
def seqLine : String :=
  "SEQ    1MiB (Q=  8, T= 1):   531.458 MB/s [   506.8 IOPS] <  15726.77 us>\n"

/-- The same measurement with the long-form pattern token. -/
def seqLongLine : String :=
  "Sequential    1MiB (Q=  8, T= 1):   531.458 MB/s [   506.8 IOPS] <  15726.77 us>\n"

/-- A measurement line whose rate field carries a thousands
separator. -/
def commaLine : String :=
  "SEQ    1MiB (Q=  8, T= 1):   1,234.56 MB/s [   506.8 IOPS] <  15726.77 us>\n"

/-- A measurement line whose rate field has two dots, so that it is
matched by the recognizer but `float()` rejects it. -/
def badNumLine : String :=
  "SEQ    1MiB (Q=  8, T= 1):   1.2.3 MB/s [   506.8 IOPS] <  15726.77 us>\n"

/-- A well-formed random-access measurement line. -/
def rndLine : String :=
  "RND    4KiB (Q= 32, T= 1):   269.406 MB/s [ 65772.9 IOPS] <    470.58 us>\n"

/-- A well-formed long-form random-access measurement line. -/
def rndLongLine : String :=
  "Random    4KiB (Q=  1, T= 1):    46.627 MB/s [ 11383.5 IOPS] <     87.50 us>\n"

/-- `seqLine` without its terminating newline, as `readline` yields it
for the last line of a file with no trailing newline. -/
def noNlLine : String :=
  "SEQ    1MiB (Q=  8, T= 1):   531.458 MB/s [   506.8 IOPS] <  15726.77 us>"

/-- The captures `parse_line` extracts from `seqLine`. -/
def seqCaps : List (String × String) :=
  match parse_line seqLine with
  | some (_, caps) => caps
  | none => []

/-- The captures `parse_line` extracts from `seqLongLine`. -/
def seqLongCaps : List (String × String) :=
  match parse_line seqLongLine with
  | some (_, caps) => caps
  | none => []

/-- The captures `parse_line` extracts from `commaLine`. -/
def commaCaps : List (String × String) :=
  match parse_line commaLine with
  | some (_, caps) => caps
  | none => []

/-- A section-header line. -/
def writeHdrLine : String := "[Write]\n"

/-- The captures `parse_line` extracts from `writeHdrLine`. -/
def writeHdrCaps : List (String × String) :=
  match parse_line writeHdrLine with
  | some (_, caps) => caps
  | none => []

/-- A metadata line, as in the repository's test fixtures. -/
def dateLine : String := "Date: 2021/06/22 17:19:21\n"

/-- The captures `parse_line` extracts from `dateLine`. -/
def dateCaps : List (String × String) :=
  match parse_line dateLine with
  | some (_, caps) => caps
  | none => []

/-- An input interleaving read-section and write-section measurement
lines. -/
def interleavedLines : List String :=
  ["[Read]\n", seqLine, "[Write]\n", rndLine, "[Read]\n", rndLongLine]

/-- The result of parsing `interleavedLines`. -/
def interleavedRes : BenchmarkResult :=
  match parse interleavedLines with
  | Except.ok r => r
  | Except.error _ => {}

/-- A throwaway `TestResult` used only as an `Option.getD` default. -/
def trDefault : TestResult :=
  ⟨"", 0, "", 0, 0, 0, "", 0, "", 0, ""⟩

/-- The `TestResult` built from `seqLine`'s captures. -/
def seqTR : TestResult :=
  (mkTestResult seqCaps).getD trDefault

theorem firstDown_eq_some {α : Type} {f : Nat → Option α} {lo : Nat} :
    ∀ {k : Nat} {v : α}, firstDown f lo k = some v →
      ∃ j, lo ≤ j ∧ j ≤ k ∧ f j = some v := by
  intro k
  induction k with
  | zero =>
    intro v h
    simp only [firstDown] at h
    by_cases hlo : lo = 0
    · rw [if_pos hlo] at h
      exact ⟨0, by omega, Nat.le_refl _, h⟩
    · rw [if_neg hlo] at h
      exact absurd h (by simp)
  | succ k ih =>
    intro v h
    simp only [firstDown] at h
    by_cases hlt : k + 1 < lo
    · rw [if_pos hlt] at h
      exact absurd h (by simp)
    · rw [if_neg hlt] at h
      cases hf : f (k + 1) with
      | some w =>
        rw [hf] at h
        exact ⟨k + 1, by omega, Nat.le_refl _, by rw [hf]; exact h⟩
      | none =>
        rw [hf] at h
        obtain ⟨j, h1, h2, h3⟩ := ih h
        exact ⟨j, h1, by omega, h3⟩

theorem searchToks_eq_some {toks : List Tok} :
    ∀ {cs : List Char} {caps : List (String × String)},
      searchToks toks cs = some caps →
        ∃ i, matchToks toks (cs.drop i) = some caps := by
  intro cs
  induction cs with
  | nil =>
    intro caps h
    exact ⟨0, by simpa [searchToks] using h⟩
  | cons c cs ih =>
    intro caps h
    simp only [searchToks] at h
    cases hm : matchToks toks (c :: cs) with
    | some v =>
      rw [hm] at h
      exact ⟨0, by rw [List.drop_zero, hm]; exact h⟩
    | none =>
      rw [hm] at h
      obtain ⟨i, hi⟩ := ih h
      exact ⟨i + 1, by simpa using hi⟩

theorem mem_of_isPrefixOf {l₁ l₂ : List Char} {c : Char}
    (h : l₁.isPrefixOf l₂ = true) (hc : c ∈ l₁) : c ∈ l₂ :=
  List.IsPrefix.mem hc (List.isPrefixOf_iff_prefix.mp h)

/-- A successful anchored match of a token list containing a literal
consumes that literal: each of its characters occurs in the input. -/
theorem matchToks_lit_mem {s : String} {c : Char} (hc : c ∈ s.toList) :
    ∀ {toks : List Tok} {cs : List Char} {caps : List (String × String)},
      matchToks toks cs = some caps → Tok.lit s ∈ toks → c ∈ cs := by
  intro toks
  induction toks with
  | nil =>
    intro cs caps _ hmem
    simp at hmem
  | cons t ts ih =>
    intro cs caps h hmem
    rcases List.mem_cons.mp hmem with heq | hmem'
    · rw [← heq] at h
      simp only [matchToks] at h
      by_cases hpre : s.toList.isPrefixOf cs = true
      · exact mem_of_isPrefixOf hpre hc
      · rw [if_neg hpre] at h
        exact absurd h (by simp)
    · cases t with
      | lit s' =>
        simp only [matchToks] at h
        by_cases hpre : s'.toList.isPrefixOf cs = true
        · rw [if_pos hpre] at h
          exact List.mem_of_mem_drop (ih h hmem')
        · rw [if_neg hpre] at h
          exact absurd h (by simp)
      | alt name alts =>
        simp only [matchToks] at h
        obtain ⟨a, _, hfa⟩ := List.exists_of_findSome?_eq_some h
        by_cases hpre : a.toList.isPrefixOf cs = true
        · rw [if_pos hpre] at hfa
          obtain ⟨caps', hm, _⟩ := Option.map_eq_some'.mp hfa
          exact List.mem_of_mem_drop (ih hm hmem')
        · rw [if_neg hpre] at hfa
          exact absurd hfa (by simp)
      | cls name p one =>
        simp only [matchToks] at h
        obtain ⟨j, _, _, hj⟩ := firstDown_eq_some h
        obtain ⟨caps', hm, _⟩ := Option.map_eq_some'.mp hj
        exact List.mem_of_mem_drop (ih hm hmem')

theorem step_of_none {st : Option String × BenchmarkResult} {l : String}
    (h : parse_line l = none) : step st l = Except.ok (none, st.2) := by
  simp [step, h]

theorem step_of_rw {st : Option String × BenchmarkResult} {l : String}
    {caps : List (String × String)}
    (h : parse_line l = some ("read_or_write", caps)) :
    step st l = Except.ok (some (pyLower (group caps "read_or_write")), st.2) := by
  simp [step, h]

theorem step_of_testres {st : Option String × BenchmarkResult} {l : String}
    {caps : List (String × String)}
    (h : parse_line l = some ("test_res", caps)) :
    step st l =
      match mkTestResult caps with
      | none => Except.error ParseError.numericFormat
      | some tr => (classifyAppend st.1 tr st.2).map fun r => (st.1, r) := by
  simp [step, h]

theorem step_of_meta {st : Option String × BenchmarkResult} {l key : String}
    {caps : List (String × String)}
    (h : parse_line l = some (key, caps))
    (h1 : key ≠ "read_or_write") (h2 : key ≠ "test_res") :
    step st l = Except.ok (none, metaUpdate key caps st.2) := by
  simp [step, h, h1, h2]

theorem metaUpdate_results (key : String) (caps : List (String × String))
    (r : BenchmarkResult) :
    (metaUpdate key caps r).read_results = r.read_results ∧
    (metaUpdate key caps r).write_results = r.write_results ∧
    (metaUpdate key caps r).mix_results = r.mix_results := by
  unfold metaUpdate
  repeat' split
  all_goals exact ⟨rfl, rfl, rfl⟩

theorem parseLines_unmatched :
    ∀ (lines : List String) (sec : Option String) (r : BenchmarkResult),
      (∀ l ∈ lines, parse_line l = none) →
      parseLines lines (sec, r) = Except.ok r := by
  intro lines
  induction lines with
  | nil => intro sec r _; rfl
  | cons l ls ih =>
    intro sec r h
    have h1 : parse_line l = none := h l (List.mem_cons_self _ _)
    simp only [parseLines, step_of_none h1]
    exact ih none r fun x hx => h x (List.mem_cons_of_mem _ hx)

theorem pyFloat_none_of_comma {s : String} (h : ',' ∈ s.toList) :
    pyFloat? s = none := by
  have hany : s.toList.any (fun c => !(isDigitPy c || c == '.')) = true :=
    List.any_eq_true.mpr ⟨',', h, by decide⟩
  unfold pyFloat?
  rw [if_pos hany]

theorem mkTestResult_none_of_rate {caps : List (String × String)}
    (h : pyFloat? (group caps "rate") = none) : mkTestResult caps = none := by
  unfold mkTestResult
  rw [h]
  rcases pyFloat? (group caps "blocksize") with _ | bs <;>
    rcases pyFloat? (group caps "iops") with _ | i <;>
    rcases pyFloat? (group caps "us") with _ | u <;> rfl

/-- C7: an input sequence in which no line matches any recognizer - in
particular the empty sequence - parses successfully to a
`BenchmarkResult` whose seven metadata fields are all `None` and whose
read, write and mix measurement lists are all empty. -/
theorem c7_unrecognized_input_yields_empty_result (lines : List String)
    (h : ∀ l ∈ lines, parse_line l = none) :
    parse lines = Except.ok
      { test := none, date := none, os := none, profile := none, time := none,
        mode := none, comment := none,
        write_results := [], read_results := [], mix_results := [] } :=
  parseLines_unmatched lines none {} h

/-- Witness for C7 at a concrete two-line banner-only input. -/
theorem c7_unrecognized_input_yields_empty_result_witness :
    parse ["------------------------------------------------------------------------------\n",
      "CrystalDiskMark 8.0.4 x64 (C) 2007-2021 hiyohiyo\n"] = Except.ok
      { test := none, date := none, os := none, profile := none, time := none,
        mode := none, comment := none,
        write_results := [], read_results := [], mix_results := [] } :=
  c7_unrecognized_input_yields_empty_result _ (by decide)

/-- C2 counterexample: contrary to the claim, an unmatched (blank)
line between a `[Read]` header and a measurement line does NOT leave
the section state unchanged - the source's `else` branch (line 295)
resets `read_or_write = None` on unmatched lines too, so the
measurement can no longer be attributed and the parse aborts with the
classification error instead of succeeding with one read
measurement. -/
theorem c2_counterexample :
    parse ["[Read]\n", "\n", seqLine] = Except.error ParseError.classification := by
  rfl

/-- C2 amended: an unmatched line resets the current-section state to
`None` (leaving the accumulated entity unchanged); consequently a
measurement line that follows a section header with an unmatched line
in between is not attributed to that section but aborts the parse with
the classification error. -/
theorem c2_amended_unmatched_resets_section :
    (∀ (st : Option String × BenchmarkResult) (l : String),
      parse_line l = none → step st l = Except.ok (none, st.2)) ∧
    (∀ (sec : Option String) (r : BenchmarkResult) (ul ml : String)
      (caps : List (String × String)) (tr : TestResult),
      parse_line ul = none → parse_line ml = some ("test_res", caps) →
      mkTestResult caps = some tr →
      parseLines [ul, ml] (sec, r) = Except.error ParseError.classification) := by
  constructor
  · intro st l h
    exact step_of_none h
  · intro sec r ul ml caps tr hul hml htr
    simp only [parseLines, step_of_none hul, step_of_testres hml, htr]
    rfl

/-- Witness for C2 amended: a blank line in a read section resets the
state, and `[Read]`-blank-measurement aborts with the classification
error. -/
theorem c2_amended_unmatched_resets_section_witness :
    step (some "read", ({} : BenchmarkResult)) "\n" =
      Except.ok (none, ({} : BenchmarkResult)) ∧
    parseLines ["\n", seqLine] (some "read", ({} : BenchmarkResult)) =
      Except.error ParseError.classification :=
  ⟨c2_amended_unmatched_resets_section.1 (some "read", {}) "\n" rfl,
    c2_amended_unmatched_resets_section.2 (some "read") {} "\n" seqLine seqCaps seqTR
      rfl rfl rfl⟩

/-- C1 counterexample: contrary to the claim, a measurement line whose
rate field is the literal `1,234.56` does not parse to the value
1234.56 - the source never strips commas, `float("1,234.56")` raises
`ValueError`, and the whole parse aborts with the numeric-format
error. -/
theorem c1_counterexample :
    parse ["[Read]\n", commaLine] = Except.error ParseError.numericFormat := by
  rfl

/-- C1 amended: a rate field containing a thousands separator is still
matched by the measurement recognizer (the class `[\d\.\,]+` admits
commas), but the comma is not stripped before floating-point parsing:
`float()` fails on it and processing such a line aborts the whole
parse with the numeric-format error, whatever the current state. -/
theorem c1_amended_comma_rate_is_fatal :
    (∀ (l : String) (caps : List (String × String)),
      parse_line l = some ("test_res", caps) →
      ',' ∈ (group caps "rate").toList →
      ∀ st : Option String × BenchmarkResult,
        step st l = Except.error ParseError.numericFormat) ∧
    parse_line commaLine = some ("test_res", commaCaps) ∧
    group commaCaps "rate" = "1,234.56" := by
  refine ⟨?_, rfl, rfl⟩
  intro l caps h hc st
  rw [step_of_testres h, mkTestResult_none_of_rate (pyFloat_none_of_comma hc)]

/-- Witness for C1 amended at `commaLine` itself. -/
theorem c1_amended_comma_rate_is_fatal_witness :
    step (some "read", ({} : BenchmarkResult)) commaLine =
      Except.error ParseError.numericFormat :=
  c1_amended_comma_rate_is_fatal.1 commaLine commaCaps rfl (by decide)
    (some "read", {})

/-- C4 counterexample: contrary to the claim, not every measurement
line matched with no active section fails with the classification
error - the source converts the captured numerals (line 278) before
the classification check (line 285), so a recognizer-matched first
line whose rate text is `1.2.3` aborts with the numeric-format
(`ValueError`) failure instead. -/
theorem c4_counterexample :
    parse [badNumLine] = Except.error ParseError.numericFormat ∧
    ParseError.numericFormat ≠ ParseError.classification := by
  exact ⟨rfl, by decide⟩

/-- C4 amended: a measurement line matched as the very first line of
input (no active section) whose numeric fields all convert aborts the
whole parse with the classification error and no result - whatever
lines follow, the entity built so far is discarded (when a numeric
field fails to convert, the numeric-format error strikes first
instead). -/
theorem c4_amended_unattributed_measurement_fatal (l : String)
    (caps : List (String × String)) (tr : TestResult) (rest : List String)
    (h : parse_line l = some ("test_res", caps))
    (hm : mkTestResult caps = some tr) :
    parse (l :: rest) = Except.error ParseError.classification := by
  unfold parse
  simp only [parseLines, step_of_testres h, hm]
  rfl

/-- Witness for C4 amended: a well-formed measurement line as the
whole input. -/
theorem c4_amended_unattributed_measurement_fatal_witness :
    parse [seqLine] = Except.error ParseError.classification :=
  c4_amended_unattributed_measurement_fatal seqLine seqCaps seqTR [] rfl rfl

theorem matchToks_lit_eq (s : String) (ts : List Tok) (cs : List Char) :
    matchToks (Tok.lit s :: ts) cs =
      if s.toList.isPrefixOf cs then matchToks ts (cs.drop s.length) else none := rfl

theorem matchToks_alt_eq (name : String) (alts : List String) (ts : List Tok)
    (cs : List Char) :
    matchToks (Tok.alt name alts :: ts) cs =
      alts.findSome? fun a =>
        if a.toList.isPrefixOf cs then
          (matchToks ts (cs.drop a.length)).map fun caps => (name, a) :: caps
        else none := rfl

theorem matchToks_cls_some_eq (n : String) (p : Char → Bool) (one : Bool)
    (ts : List Tok) (cs : List Char) :
    matchToks (Tok.cls (some n) p one :: ts) cs =
      firstDown
        (fun k => (matchToks ts (cs.drop k)).map fun caps =>
          (n, String.mk (cs.take k)) :: caps)
        (if one then 1 else 0) (takeCount p cs) := rfl

theorem matchToks_cls_none_eq (p : Char → Bool) (one : Bool) (ts : List Tok)
    (cs : List Char) :
    matchToks (Tok.cls none p one :: ts) cs =
      firstDown (fun k => matchToks ts (cs.drop k))
        (if one then 1 else 0) (takeCount p cs) := by
  show firstDown (fun k => (matchToks ts (cs.drop k)).map fun caps => caps) _ _ = _
  congr 1
  funext k
  cases matchToks ts (cs.drop k) <;> rfl

/-- Any successful (anchored) match of the measurement regex captures
the `type` group first, and its text is one of the four alternation
tokens. -/
theorem testres_caps_head {cs : List Char} {caps : List (String × String)}
    (h : matchToks testResToks cs = some caps) :
    ∃ a caps', a ∈ (["SEQ", "RND", "Sequential", "Random"] : List String) ∧
      caps = ("type", a) :: caps' := by
  simp only [testResToks] at h
  rw [matchToks_cls_none_eq] at h
  obtain ⟨j, _, _, hj⟩ := firstDown_eq_some h
  rw [matchToks_alt_eq] at hj
  obtain ⟨a, ha, hfa⟩ := List.exists_of_findSome?_eq_some hj
  by_cases hpre : a.toList.isPrefixOf (cs.drop j) = true
  · rw [if_pos hpre] at hfa
    obtain ⟨caps2, _, hcaps2⟩ := Option.map_eq_some'.mp hfa
    exact ⟨a, caps2, ha, hcaps2.symm⟩
  · rw [if_neg hpre] at hfa
    exact absurd hfa (by simp)

/-- Any successful (anchored) match of the section-header regex
produces exactly one capture, whose text is one of the three
case-sensitive tokens `Read`, `Write`, `Mix`. -/
theorem readOrWrite_caps_shape {cs : List Char} {caps : List (String × String)}
    (h : matchToks readOrWriteToks cs = some caps) :
    ∃ a, a ∈ (["Read", "Write", "Mix"] : List String) ∧
      caps = [("read_or_write", a)] := by
  simp only [readOrWriteToks] at h
  rw [matchToks_cls_none_eq] at h
  obtain ⟨j, _, _, hj⟩ := firstDown_eq_some h
  rw [matchToks_lit_eq] at hj
  by_cases hpre1 : "[".toList.isPrefixOf (cs.drop j) = true
  case neg => rw [if_neg hpre1] at hj; exact absurd hj (by simp)
  rw [if_pos hpre1] at hj
  rw [matchToks_alt_eq] at hj
  obtain ⟨a, ha, hfa⟩ := List.exists_of_findSome?_eq_some hj
  by_cases hpre2 : a.toList.isPrefixOf (((cs.drop j).drop "[".length)) = true
  case neg => rw [if_neg hpre2] at hfa; exact absurd hfa (by simp)
  rw [if_pos hpre2] at hfa
  obtain ⟨caps2, hm2, hcaps2⟩ := Option.map_eq_some'.mp hfa
  have hc2 : caps2 = [] := by
    rw [matchToks_lit_eq] at hm2
    by_cases hpre3 :
        "]".toList.isPrefixOf ((((cs.drop j).drop "[".length)).drop a.length) = true
    case neg => rw [if_neg hpre3] at hm2; exact absurd hm2 (by simp)
    rw [if_pos hpre3] at hm2
    rw [matchToks_cls_none_eq] at hm2
    obtain ⟨j2, _, _, hj2⟩ := firstDown_eq_some hm2
    simpa [matchToks] using hj2.symm
  rw [hc2] at hcaps2
  exact ⟨a, ha, hcaps2.symm⟩

/-- When `__parse_line` reports key `test_res`, the captures are those
of an `re.search` of the measurement regex on the line. -/
theorem parse_line_testres {l : String} {caps : List (String × String)}
    (h : parse_line l = some ("test_res", caps)) :
    searchToks testResToks l.toList = some caps := by
  unfold parse_line at h
  obtain ⟨kv, hmem, hkv⟩ := List.exists_of_findSome?_eq_some h
  obtain ⟨caps', hsearch, heq⟩ := Option.map_eq_some'.mp hkv
  have h1 : kv.1 = "test_res" := congrArg Prod.fst heq
  have h2 : caps' = caps := congrArg Prod.snd heq
  fin_cases hmem
  · rw [← h2]; exact hsearch
  all_goals exact absurd h1 (by decide)

/-- When `__parse_line` reports key `read_or_write`, the captures are
those of an `re.search` of the section-header regex on the line. -/
theorem parse_line_readOrWrite {l : String} {caps : List (String × String)}
    (h : parse_line l = some ("read_or_write", caps)) :
    searchToks readOrWriteToks l.toList = some caps := by
  unfold parse_line at h
  obtain ⟨kv, hmem, hkv⟩ := List.exists_of_findSome?_eq_some h
  obtain ⟨caps', hsearch, heq⟩ := Option.map_eq_some'.mp hkv
  have h1 : kv.1 = "read_or_write" := congrArg Prod.fst heq
  have h2 : caps' = caps := congrArg Prod.snd heq
  fin_cases hmem
  · exact absurd h1 (by decide)
  · rw [← h2]; exact hsearch
  all_goals exact absurd h1 (by decide)

/-- C3 counterexample: contrary to the claim, the pattern-kind token
is not normalized to a two-value enumeration - the token text is
stored verbatim, so `SEQ` and `Sequential` lines yield two different
`patternKind` values. -/
theorem c3_counterexample :
    (parse ["[Read]\n", seqLine]).map (fun r => r.read_results.map TestResult.test_type) =
      Except.ok ["SEQ"] ∧
    (parse ["[Read]\n", seqLongLine]).map
        (fun r => r.read_results.map TestResult.test_type) =
      Except.ok ["Sequential"] ∧
    ("SEQ" : String) ≠ "Sequential" := by
  exact ⟨rfl, rfl, by decide⟩

/-- C3 amended: on every measurement-line match the captured
pattern-kind token is one of `SEQ`, `RND`, `Sequential`, `Random`, and
the constructed measurement stores that token text verbatim in
`test_type` (no normalization to a two-value enumeration occurs, so
`SEQ` and `Sequential` yield distinct values). -/
theorem c3_amended_pattern_token_stored_verbatim (l : String)
    (caps : List (String × String))
    (h : parse_line l = some ("test_res", caps)) :
    group caps "type" ∈ (["SEQ", "RND", "Sequential", "Random"] : List String) ∧
    ∀ tr : TestResult, mkTestResult caps = some tr →
      tr.test_type = group caps "type" := by
  obtain ⟨i, hm⟩ := searchToks_eq_some (parse_line_testres h)
  obtain ⟨a, caps', ha, hshape⟩ := testres_caps_head hm
  have hgroup : group caps "type" = a := by
    rw [hshape]; simp [group, List.lookup]
  have hstrip : pyStrip (group caps "type") = group caps "type" := by
    rw [hgroup]
    fin_cases ha <;> rfl
  constructor
  · rw [hgroup]; exact ha
  · intro tr htr
    unfold mkTestResult at htr
    split at htr
    · cases htr
      exact hstrip
    · exact absurd htr (by simp)

/-- Witness for C3 amended at the concrete line `seqLine`. -/
theorem c3_amended_pattern_token_stored_verbatim_witness :
    group seqCaps "type" ∈ (["SEQ", "RND", "Sequential", "Random"] : List String) ∧
    ∀ tr : TestResult, mkTestResult seqCaps = some tr →
      tr.test_type = group seqCaps "type" :=
  c3_amended_pattern_token_stored_verbatim seqLine seqCaps rfl

/-- C8: classification tests the recognizers in the fixed precedence
order measurement line, then section header, then the metadata-label
recognizers, first match winning; and the section-header recognizer
only ever captures one of the case-sensitive bracketed tokens `Read`,
`Write`, `Mix` (uppercase or lowercase variants do not match). -/
theorem c8_recognizer_precedence_and_header_tokens :
    (∀ (l : String) (caps : List (String × String)),
      searchToks testResToks l.toList = some caps →
      parse_line l = some ("test_res", caps)) ∧
    (∀ (l : String) (caps : List (String × String)),
      searchToks testResToks l.toList = none →
      searchToks readOrWriteToks l.toList = some caps →
      parse_line l = some ("read_or_write", caps)) ∧
    (∀ l : String,
      searchToks testResToks l.toList = none →
      searchToks readOrWriteToks l.toList = none →
      parse_line l = (rx_dict.drop 2).findSome? fun kv =>
        (searchToks kv.2 l.toList).map fun caps => (kv.1, caps)) ∧
    (∀ (cs : List Char) (caps : List (String × String)),
      matchToks readOrWriteToks cs = some caps →
      group caps "read_or_write" ∈ (["Read", "Write", "Mix"] : List String)) ∧
    parse_line "[READ]\n" = none ∧
    parse_line "[read]\n" = none := by
  refine ⟨?_, ?_, ?_, ?_, rfl, rfl⟩
  · intro l caps h
    have h' : searchToks testResToks l.data = some caps := h
    simp [parse_line, rx_dict, List.findSome?_cons, h']
  · intro l caps h1 h2
    have h1' : searchToks testResToks l.data = none := h1
    have h2' : searchToks readOrWriteToks l.data = some caps := h2
    simp [parse_line, rx_dict, List.findSome?_cons, h1', h2']
  · intro l h1 h2
    have h1' : searchToks testResToks l.data = none := h1
    have h2' : searchToks readOrWriteToks l.data = none := h2
    simp [parse_line, rx_dict, List.findSome?_cons, h1', h2']
  · intro cs caps h
    obtain ⟨a, ha, hshape⟩ := readOrWrite_caps_shape h
    rw [hshape]
    simpa [group, List.lookup] using ha

/-- Witness for C8: the two precedence statements and the token-shape
statement applied at concrete lines. -/
theorem c8_recognizer_precedence_and_header_tokens_witness :
    parse_line seqLine = some ("test_res", seqCaps) ∧
    parse_line writeHdrLine = some ("read_or_write", writeHdrCaps) ∧
    parse_line dateLine = ((rx_dict.drop 2).findSome? fun kv =>
      (searchToks kv.2 dateLine.toList).map fun caps => (kv.1, caps)) ∧
    group writeHdrCaps "read_or_write" ∈ (["Read", "Write", "Mix"] : List String) :=
  ⟨c8_recognizer_precedence_and_header_tokens.1 seqLine seqCaps rfl,
    c8_recognizer_precedence_and_header_tokens.2.1 writeHdrLine writeHdrCaps rfl rfl,
    c8_recognizer_precedence_and_header_tokens.2.2.1 dateLine rfl rfl,
    c8_recognizer_precedence_and_header_tokens.2.2.2.1 writeHdrLine.toList
      writeHdrCaps rfl⟩

/-- C10: the measurement regex ends in a mandatory `\n`, so a
measurement-shaped final line not terminated by a newline (as
`readline` yields for a file with no trailing newline) cannot match
it: in general no newline-free string matches the measurement
recognizer; such a line is silently skipped - no measurement is
appended, no error is raised - and, being unrecognized, it resets the
current section to none. -/
theorem c10_measurement_regex_requires_newline :
    (∀ l : String, '\n' ∉ l.toList → searchToks testResToks l.toList = none) ∧
    parse_line noNlLine = none ∧
    step (some "read", ({} : BenchmarkResult)) noNlLine =
      Except.ok (none, ({} : BenchmarkResult)) ∧
    parse ["[Read]\n", noNlLine] = Except.ok
      { test := none, date := none, os := none, profile := none, time := none,
        mode := none, comment := none,
        write_results := [], read_results := [], mix_results := [] } := by
  refine ⟨?_, rfl, rfl, rfl⟩
  intro l h
  cases hs : searchToks testResToks l.toList with
  | none => rfl
  | some caps =>
    obtain ⟨i, hm⟩ := searchToks_eq_some hs
    have hnl : Tok.lit "\n" ∈ testResToks := by simp [testResToks]
    have hmem : '\n' ∈ l.toList.drop i :=
      matchToks_lit_mem (by decide) hm hnl
    exact absurd (List.mem_of_mem_drop hmem) h

/-- Witness for C10: the general newline requirement applied at the
concrete truncated line. -/
theorem c10_measurement_regex_requires_newline_witness :
    searchToks testResToks noNlLine.toList = none :=
  c10_measurement_regex_requires_newline.1 noNlLine (by decide)

theorem meta_key_ne {key : String}
    (h : key ∈ (["profile", "test", "mode", "time", "date", "os", "comment"] :
      List String)) :
    key ≠ "read_or_write" ∧ key ≠ "test_res" := by
  fin_cases h <;> exact ⟨by decide, by decide⟩

/-- C5 counterexample: contrary to the claim, a measurement line after
a metadata line does not always fail with the attribution error - when
one of its numeric fields does not convert, the `ValueError` of the
field conversion (source line 278) strikes before the attribution
check (line 285). -/
theorem c5_counterexample :
    parse ["[Read]\n", dateLine, badNumLine] = Except.error ParseError.numericFormat ∧
    ParseError.numericFormat ≠ ParseError.classification := by
  exact ⟨rfl, by decide⟩

/-- C5 amended: a recognized metadata line (Profile:/Test:/Mode:/
Time:/Date:/OS:/Comment:) resets the current section to none, while a
measurement line never changes the section; consequently a measurement
line whose numeric fields all convert, occurring after a metadata line
and before any new section header, aborts the parse with the
attribution (classification) error, even if a section header was
active before the metadata line (a non-converting numeric field aborts
with the numeric-format error first instead). -/
theorem c5_amended_metadata_resets_section :
    (∀ (st : Option String × BenchmarkResult) (l key : String)
      (caps : List (String × String)),
      parse_line l = some (key, caps) →
      key ∈ (["profile", "test", "mode", "time", "date", "os", "comment"] :
        List String) →
      step st l = Except.ok (none, metaUpdate key caps st.2)) ∧
    (∀ (st : Option String × BenchmarkResult) (l : String)
      (caps : List (String × String)) (st' : Option String × BenchmarkResult),
      parse_line l = some ("test_res", caps) →
      step st l = Except.ok st' → st'.1 = st.1) ∧
    (∀ (sec : Option String) (r : BenchmarkResult) (ml key : String)
      (caps : List (String × String)) (l2 : String)
      (caps2 : List (String × String)) (tr : TestResult),
      parse_line ml = some (key, caps) →
      key ∈ (["profile", "test", "mode", "time", "date", "os", "comment"] :
        List String) →
      parse_line l2 = some ("test_res", caps2) → mkTestResult caps2 = some tr →
      parseLines [ml, l2] (sec, r) = Except.error ParseError.classification) := by
  refine ⟨?_, ?_, ?_⟩
  · intro st l key caps h hk
    obtain ⟨h1, h2⟩ := meta_key_ne hk
    exact step_of_meta h h1 h2
  · intro st l caps st' h hstep
    rw [step_of_testres h] at hstep
    cases hmk : mkTestResult caps with
    | none => rw [hmk] at hstep; exact absurd hstep (by simp)
    | some tr =>
      rw [hmk] at hstep
      dsimp only at hstep
      cases hca : classifyAppend st.1 tr st.2 with
      | error e =>
        rw [hca] at hstep
        exact absurd hstep (by simp [Except.map])
      | ok r2 =>
        rw [hca] at hstep
        simp only [Except.map] at hstep
        cases hstep
        rfl
  · intro sec r ml key caps l2 caps2 tr hml hk hl2 htr
    obtain ⟨h1, h2⟩ := meta_key_ne hk
    simp only [parseLines, step_of_meta hml h1 h2, step_of_testres hl2, htr]
    rfl

/-- The three result lists a successful `parseLines` run produces are
the section-filtered projections of the chronological
(section, measurement) trace of the remaining lines, appended to the
lists already accumulated. -/
theorem parseLines_trace :
    ∀ (lines : List String) (st : Option String × BenchmarkResult)
      (res : BenchmarkResult),
      parseLines lines st = Except.ok res →
      res.read_results = st.2.read_results ++
        ((specChronTrace st.1 lines).filter fun p => p.1 == "read").map Prod.snd ∧
      res.write_results = st.2.write_results ++
        ((specChronTrace st.1 lines).filter fun p => p.1 == "write").map Prod.snd ∧
      res.mix_results = st.2.mix_results ++
        ((specChronTrace st.1 lines).filter fun p => p.1 == "mix").map Prod.snd := by
  intro lines
  induction lines with
  | nil =>
    intro st res h
    cases h
    simp [specChronTrace]
  | cons l ls ih =>
    intro st res h
    simp only [parseLines] at h
    cases hstep : step st l with
    | error e =>
      rw [hstep] at h
      exact absurd h (by simp)
    | ok st' =>
      rw [hstep] at h
      have IH := ih st' res h
      cases hpl : parse_line l with
      | none =>
        rw [step_of_none hpl] at hstep
        cases hstep
        have htrace : specChronTrace st.1 (l :: ls) = specChronTrace none ls := by
          simp [specChronTrace, hpl]
        rw [htrace]
        exact IH
      | some kv =>
        obtain ⟨key, caps⟩ := kv
        by_cases hk1 : key = "read_or_write"
        · subst hk1
          rw [step_of_rw hpl] at hstep
          cases hstep
          have htrace : specChronTrace st.1 (l :: ls) =
              specChronTrace (some (pyLower (group caps "read_or_write"))) ls := by
            simp [specChronTrace, hpl]
          rw [htrace]
          exact IH
        · by_cases hk2 : key = "test_res"
          · subst hk2
            rw [step_of_testres hpl] at hstep
            cases hmk : mkTestResult caps with
            | none =>
              rw [hmk] at hstep
              exact absurd hstep (by simp)
            | some tr =>
              rw [hmk] at hstep
              dsimp only at hstep
              unfold classifyAppend at hstep
              by_cases hw : st.1 = some "write"
              · rw [if_pos hw] at hstep
                simp only [Except.map] at hstep
                cases hstep
                obtain ⟨IH1, IH2, IH3⟩ := IH
                dsimp only at IH1 IH2 IH3
                rw [hw] at IH1 IH2 IH3 ⊢
                have htrace : specChronTrace (some "write") (l :: ls) =
                    ("write", tr) :: specChronTrace (some "write") ls := by
                  simp [specChronTrace, hpl, hmk]
                rw [htrace]
                refine ⟨by simpa using IH1, ?_, by simpa using IH3⟩
                rw [IH2]
                simp
              · rw [if_neg hw] at hstep
                by_cases hr : st.1 = some "read"
                · rw [if_pos hr] at hstep
                  simp only [Except.map] at hstep
                  cases hstep
                  obtain ⟨IH1, IH2, IH3⟩ := IH
                  dsimp only at IH1 IH2 IH3
                  rw [hr] at IH1 IH2 IH3 ⊢
                  have htrace : specChronTrace (some "read") (l :: ls) =
                      ("read", tr) :: specChronTrace (some "read") ls := by
                    simp [specChronTrace, hpl, hmk]
                  rw [htrace]
                  refine ⟨?_, by simpa using IH2, by simpa using IH3⟩
                  rw [IH1]
                  simp
                · rw [if_neg hr] at hstep
                  by_cases hx : st.1 = some "mix"
                  · rw [if_pos hx] at hstep
                    simp only [Except.map] at hstep
                    cases hstep
                    obtain ⟨IH1, IH2, IH3⟩ := IH
                    dsimp only at IH1 IH2 IH3
                    rw [hx] at IH1 IH2 IH3 ⊢
                    have htrace : specChronTrace (some "mix") (l :: ls) =
                        ("mix", tr) :: specChronTrace (some "mix") ls := by
                      simp [specChronTrace, hpl, hmk]
                    rw [htrace]
                    refine ⟨by simpa using IH1, by simpa using IH2, ?_⟩
                    rw [IH3]
                    simp
                  · rw [if_neg hx] at hstep
                    exact absurd hstep (by simp [Except.map])
          · rw [step_of_meta hpl hk1 hk2] at hstep
            cases hstep
            obtain ⟨IH1, IH2, IH3⟩ := IH
            dsimp only at IH1 IH2 IH3
            obtain ⟨hmr, hmw, hmm⟩ := metaUpdate_results key caps st.2
            rw [hmr] at IH1
            rw [hmw] at IH2
            rw [hmm] at IH3
            have htrace : specChronTrace st.1 (l :: ls) = specChronTrace none ls := by
              simp [specChronTrace, hpl, hk1, hk2]
            rw [htrace]
            exact ⟨IH1, IH2, IH3⟩

/-- C6: on every successfully parsed input the three measurement lists
are the section-filtered projections, in original source order, of the
chronological (section, measurement) sequence of the input; in
particular, with N read-attributed and M write-attributed measurement
lines interleaved arbitrarily, `read_results` has exactly the N read
measurements in original relative order and `write_results` the M
write measurements in original relative order, with no reordering and
no deduplication in any of the three lists. -/
theorem c6_order_and_multiplicity_preserved (lines : List String)
    (res : BenchmarkResult) (h : parse lines = Except.ok res) :
    res.read_results =
      ((specChronTrace none lines).filter fun p => p.1 == "read").map Prod.snd ∧
    res.write_results =
      ((specChronTrace none lines).filter fun p => p.1 == "write").map Prod.snd ∧
    res.mix_results =
      ((specChronTrace none lines).filter fun p => p.1 == "mix").map Prod.snd := by
  have := parseLines_trace lines (none, {}) res h
  simpa using this

/-- Witness for C6 on a concrete interleaving: two read-section
measurements around one write-section measurement. -/
theorem c6_order_and_multiplicity_preserved_witness :
    interleavedRes.read_results =
      ((specChronTrace none interleavedLines).filter
        fun p => p.1 == "read").map Prod.snd ∧
    interleavedRes.write_results =
      ((specChronTrace none interleavedLines).filter
        fun p => p.1 == "write").map Prod.snd ∧
    interleavedRes.mix_results =
      ((specChronTrace none interleavedLines).filter
        fun p => p.1 == "mix").map Prod.snd :=
  c6_order_and_multiplicity_preserved interleavedLines interleavedRes rfl

/-- Witness for C5 amended: a `Date:` line resets a read section, a
measurement keeps the section, and `[Read]`-`Date:`-measurement aborts
with the classification error. -/
theorem c5_amended_metadata_resets_section_witness :
    step (some "read", ({} : BenchmarkResult)) dateLine =
      Except.ok (none, metaUpdate "date" dateCaps ({} : BenchmarkResult)) ∧
    (some "read",
      ({ read_results := [seqTR] } : BenchmarkResult)).1 = (some "read") ∧
    parseLines [dateLine, seqLine] (some "read", ({} : BenchmarkResult)) =
      Except.error ParseError.classification :=
  ⟨c5_amended_metadata_resets_section.1 (some "read", {}) dateLine "date" dateCaps
      rfl (by decide),
    c5_amended_metadata_resets_section.2.1 (some "read", {}) seqLine seqCaps
      (some "read", { read_results := [seqTR] }) rfl rfl,
    c5_amended_metadata_resets_section.2.2 (some "read") {} dateLine "date" dateCaps
      seqLine seqCaps seqTR rfl (by decide) rfl rfl⟩

theorem foldl_append_singleton {α β : Type} (f : α → β) :
    ∀ (l : List α) (init : List β),
      l.foldl (fun acc a => acc ++ [f a]) init = init ++ l.map f := by
  intro l
  induction l with
  | nil => intro init; simp
  | cons a as ih => intro init; simp [ih]

/-- C9: for every successfully parsed input the flattened table has
exactly one row per measurement - all read rows in source order, then
all write rows, then all mix rows - and every row repeats all seven
run-metadata fields and carries the `read_write_mix` discriminator of
its owning sequence. -/
theorem c9_flattened_rows (lines : List String) (res : BenchmarkResult)
    (h : parse lines = Except.ok res) :
    parse_df lines = Except.ok
      (res.read_results.map (rowOfRead res) ++
        res.write_results.map (rowOfWrite res) ++
        res.mix_results.map (rowOfMix res)) ∧
    (∀ rows, parse_df lines = Except.ok rows →
      rows.length = res.read_results.length + res.write_results.length +
        res.mix_results.length ∧
      ∀ row ∈ rows, row.date = res.date ∧ row.test = res.test ∧
        row.time = res.time ∧ row.os = res.os ∧ row.mode = res.mode ∧
        row.profile = res.profile ∧ row.comment = res.comment ∧
        row.read_write_mix ∈ (["read", "write", "mix"] : List String)) ∧
    (∀ r : TestResult, (rowOfRead res r).read_write_mix = "read" ∧
      (rowOfWrite res r).read_write_mix = "write" ∧
      (rowOfMix res r).read_write_mix = "mix") := by
  have h1 : parse_df lines = Except.ok
      (res.read_results.map (rowOfRead res) ++
        res.write_results.map (rowOfWrite res) ++
        res.mix_results.map (rowOfMix res)) := by
    simp [parse_df, h, foldl_append_singleton, Except.map]
  refine ⟨h1, ?_, fun r => ⟨rfl, rfl, rfl⟩⟩
  intro rows hrows
  rw [h1] at hrows
  cases hrows
  constructor
  · simp [Nat.add_assoc]
  · intro row hrow
    simp only [List.mem_append] at hrow
    rcases hrow with (hrow | hrow) | hrow <;>
      (obtain ⟨r, _, rfl⟩ := List.mem_map.mp hrow;
        exact ⟨rfl, rfl, rfl, rfl, rfl, rfl, rfl,
          by simp [rowOfRead, rowOfWrite, rowOfMix]⟩)

/-- Witness for C9 at the concrete interleaved input. -/
theorem c9_flattened_rows_witness :
    parse_df interleavedLines = Except.ok
      (interleavedRes.read_results.map (rowOfRead interleavedRes) ++
        interleavedRes.write_results.map (rowOfWrite interleavedRes) ++
        interleavedRes.mix_results.map (rowOfMix interleavedRes)) ∧
    (∀ rows, parse_df interleavedLines = Except.ok rows →
      rows.length = interleavedRes.read_results.length +
        interleavedRes.write_results.length +
        interleavedRes.mix_results.length ∧
      ∀ row ∈ rows, row.date = interleavedRes.date ∧
        row.test = interleavedRes.test ∧ row.time = interleavedRes.time ∧
        row.os = interleavedRes.os ∧ row.mode = interleavedRes.mode ∧
        row.profile = interleavedRes.profile ∧
        row.comment = interleavedRes.comment ∧
        row.read_write_mix ∈ (["read", "write", "mix"] : List String)) ∧
    (∀ r : TestResult,
      (rowOfRead interleavedRes r).read_write_mix = "read" ∧
      (rowOfWrite interleavedRes r).read_write_mix = "write" ∧
      (rowOfMix interleavedRes r).read_write_mix = "mix") :=
  c9_flattened_rows interleavedLines interleavedRes rfl

end CDM
